import Mathlib

/-!
Verification development for the NEXUS bat-monitoring reconciliation pipeline.

This file gives a shallow embedding, in Lean 4, of the decision logic of the
pipeline's Python scripts and proves the specified properties about it:

* `BatSummary` models `bat_summary.py`: the frequency-band species classifier
  (`SPECIES_RULES`, `assign_species`), the JSON and CSV detection loaders
  (`load_all_json`, `load_all_csv`), and the CSV-priority reconciliation
  performed in `main` (`reconcile`), together with the per-species and
  per-file aggregates.
* `Validator` models `batch-validator.py`: the reference-table lookup and the
  frequency/duration plausibility checks of `validate_row`.
* `Merge3` models `final_3way_merge.py`: the nearest-neighbour-within-tolerance
  time join (`pd.merge_asof` with `direction='nearest'`) and the sorted,
  de-duplicated, comma-joined species aggregation.
* `Autostart` models `bat_autostart_final.py`: the GPS plausibility bounding
  box (`is_plausible_europe`), the lat/lon swap correction of `get_position`,
  and the acceptance filter of `main`.

Floats are modelled as rationals (`ℚ`); a pandas `NaN` / missing value is
modelled as `Option.none`.  Tabular data is modelled as lists of records.
-/

namespace BatSummary

/-- Score threshold of `bat_summary.py` (`SCORE_THRESHOLD = 0.5`). -/
def SCORE_THRESHOLD : ℚ := 1/2

/-- One frequency-band rule: `(species_name, f_min_khz, f_max_khz)`. -/
structure BandRule where
  name : String
  fmin : ℚ
  fmax : ℚ
deriving Repr, DecidableEq

/-- The ordered band list `SPECIES_RULES` of `bat_summary.py`, transcribed
verbatim; the catch-all `("Unknown/Fallback", 0, 125)` is last. -/
def SPECIES_RULES : List BandRule := [
  ⟨"Rhinolophus hipposideros", 106, 120⟩,
  ⟨"Rhinolophus ferrumequinum", 77, 88⟩,
  ⟨"Pipistrellus pygmaeus", 53, 58⟩,
  ⟨"Pipistrellus pipistrellus", 45, 75⟩,
  ⟨"Pipistrellus nathusii", 37, 50⟩,
  ⟨"Eptesicus serotinus", 25, 40⟩,
  ⟨"Nyctalus noctula", 18, 30⟩,
  ⟨"Nyctalus leisleri", 25, 45⟩,
  ⟨"Vespertilio murinus", 22, 35⟩,
  ⟨"Eptesicus nilssonii", 23, 35⟩,
  ⟨"Myotis mystacinus/brandtii", 40, 65⟩,
  ⟨"Myotis daubentonii", 45, 65⟩,
  ⟨"Myotis nattereri", 40, 65⟩,
  ⟨"Myotis bechsteinii", 35, 50⟩,
  ⟨"Myotis myotis/blythii", 25, 50⟩,
  ⟨"Myotis dasycneme", 40, 65⟩,
  ⟨"Myotis capaccinii", 40, 50⟩,
  ⟨"Myotis alcathoe", 55, 65⟩,
  ⟨"Myotis emarginatus", 35, 55⟩,
  ⟨"Barbastella barbastellus", 30, 40⟩,
  ⟨"Plecotus auritus/austriacus", 25, 40⟩,
  ⟨"Miniopterus schreibersii", 50, 60⟩,
  ⟨"Tadarida teniotis", 10, 15⟩,
  ⟨"Hypsugo savii", 30, 55⟩,
  ⟨"Nyctalus lasiopterus", 18, 22⟩,
  ⟨"Pipistrellus kuhlii", 35, 50⟩,
  ⟨"Unknown/Fallback", 0, 125⟩]

/-- Whether a band's closed interval `[fmin, fmax]` contains a frequency. -/
def BandRule.contains (r : BandRule) (x : ℚ) : Bool :=
  decide (r.fmin ≤ x ∧ x ≤ r.fmax)

/-- The classifier of `assign_species`, generalised over the band list it
iterates: `None` (pandas `NaN`, "not a number") yields the sentinel
`"unbestimmt"`, otherwise the first band whose closed interval contains the
input wins, and `"unbestimmt"` is returned when no band matches. -/
def assign_species_with (rules : List BandRule) (freq_mean_khz : Option ℚ) : String :=
  match freq_mean_khz with
  | none => "unbestimmt"
  | some x =>
    match rules.find? (fun r => r.contains x) with
    | some r => r.name
    | none => "unbestimmt"

/-- The function `assign_species` of `bat_summary.py`, iterating the global
`SPECIES_RULES`. -/
def assign_species (freq_mean_khz : Option ℚ) : String :=
  assign_species_with SPECIES_RULES freq_mean_khz

/-- One detection object of the classifier JSON export
(`data["annotation"][i]`); every field may be absent. -/
structure JsonDet where
  start_time : Option ℚ
  end_time : Option ℚ
  low_freq : Option ℚ
  high_freq : Option ℚ
  freq_mean : Option ℚ
  det_prob : Option ℚ
deriving Repr, DecidableEq

/-- Derivation of the `freq_mean` record field in `load_all_json`:
`(low_freq + high_freq) / 2000` when `freq_mean` is absent and both band
edges are present, else `freq_mean / 1000` when present, else `NaN`. -/
def deriveFreqMean (d : JsonDet) : Option ℚ :=
  match d.freq_mean, d.low_freq, d.high_freq with
  | none, some l, some h => some ((l + h) / 2000)
  | some fm, _, _ => some (fm / 1000)
  | none, _, _ => none

/-- One row of the JSON-path table after `load_all_json` (the `_json`
suffixed columns are added by the lines
`df['species_json'] = ...` through `df['high_freq_json'] = ...`). -/
structure JRow where
  start : Option ℚ
  end_ : Option ℚ
  low_freq : Option ℚ
  high_freq : Option ℚ
  freq_mean : Option ℚ
  confidence : Option ℚ
  source_file : String
  basename : String
  species_json : String
  confidence_json : Option ℚ
  low_freq_json : Option ℚ
  high_freq_json : Option ℚ
deriving Repr, DecidableEq

/-- The stem of a file name, as `os.path.splitext(...)[0]` computes it for a
plain file name: everything before the last dot, the whole name if it has
no dot. -/
def splitextStem (s : String) : String :=
  match (s.toList.reverse).dropWhile (fun c => c ≠ '.') with
  | [] => s
  | _ :: rest => String.mk rest.reverse

/-- The record built for one JSON detection in the loop of `load_all_json`
(before the confidence filter; the `_json` columns are filled later, here
left in their final state since they are per-row functions of the base
columns). -/
def mkJRowBase (file : String) (d : JsonDet) : JRow :=
  { start := d.start_time
    end_ := d.end_time
    low_freq := d.low_freq
    high_freq := d.high_freq
    freq_mean := deriveFreqMean d
    confidence := d.det_prob
    source_file := file
    basename := splitextStem file
    species_json := assign_species (deriveFreqMean d)
    confidence_json := d.det_prob
    low_freq_json := d.low_freq
    high_freq_json := d.high_freq }

/-- The global confidence-threshold decision of `load_all_json`
(`if not df["confidence"].isna().all(): df = df[df["confidence"] >= score_thresh]`):
when every confidence in the batch is absent nothing is filtered, otherwise
only rows with a present confidence `≥ thresh` are kept (a `NaN` compares
false in pandas, so rows with absent confidence are dropped). -/
def confidenceFilter (thresh : ℚ) (rows : List JRow) : List JRow :=
  if rows.all (fun r => r.confidence = none) then rows
  else rows.filter (fun r =>
    match r.confidence with
    | some c => decide (thresh ≤ c)
    | none => false)

/-- The JSON loading path `load_all_json` of `bat_summary.py`: flatten all
files' detection arrays into records, apply the global confidence filter,
then drop rows without a usable `freq_mean`
(`df.dropna(subset=['freq_mean'])`). -/
def load_all_json (files : List (String × List JsonDet)) (score_thresh : ℚ) : List JRow :=
  let recs := files.flatMap (fun fd => fd.2.map (mkJRowBase fd.1))
  let recs := confidenceFilter score_thresh recs
  recs.filter (fun r => r.freq_mean ≠ none)

/-- One row of a classifier CSV export of `bat_summary.py`, after the column
renaming (`start_time → start`, `end_time → end`, `class → species`,
`det_prob → confidence`); a column absent from a file is `none` for that
file's rows (the loop `combined_df[col] = np.nan`). -/
structure CsvIn where
  start : Option ℚ
  end_ : Option ℚ
  low_freq : Option ℚ
  high_freq : Option ℚ
  species : Option String
  confidence : Option ℚ
  freq_mean : Option ℚ
deriving Repr, DecidableEq

/-- One row of the CSV-path table after `load_all_csv` (with the `_csv`
suffixed copies added by `combined_df['species_csv'] = ...` etc.). -/
structure CRow where
  start : Option ℚ
  end_ : Option ℚ
  low_freq : Option ℚ
  high_freq : Option ℚ
  species : Option String
  confidence : Option ℚ
  freq_mean : Option ℚ
  source_file : String
  basename : String
  species_csv : Option String
  confidence_csv : Option ℚ
  low_freq_csv : Option ℚ
  high_freq_csv : Option ℚ
deriving Repr, DecidableEq

/-- The row built for one CSV detection in `load_all_csv`. -/
def mkCRow (file : String) (c : CsvIn) : CRow :=
  { start := c.start
    end_ := c.end_
    low_freq := c.low_freq
    high_freq := c.high_freq
    species := c.species
    confidence := c.confidence
    freq_mean := c.freq_mean
    source_file := file
    basename := splitextStem file
    species_csv := c.species
    confidence_csv := c.confidence
    low_freq_csv := c.low_freq
    high_freq_csv := c.high_freq }

/-- The CSV loading path `load_all_csv` of `bat_summary.py`: the files'
rows are concatenated (`pd.concat`) with `basename` attached; no confidence
filter is applied. -/
def load_all_csv (files : List (String × List CsvIn)) : List CRow :=
  files.flatMap (fun fd => fd.2.map (mkCRow fd.1))

/-- One row of the canonical detection table produced by `main` of
`bat_summary.py` (columns kept by the per-file save:
`start, end, low_freq, high_freq, species, confidence`, plus the join key
`basename` and `freq_mean`). -/
structure Canon where
  basename : String
  start : Option ℚ
  end_ : Option ℚ
  low_freq : Option ℚ
  high_freq : Option ℚ
  freq_mean : Option ℚ
  species : Option String
  confidence : Option ℚ
deriving Repr, DecidableEq

/-- The CSV-priority field-resolution rule
(`np.where(df['x_csv'].notna(), df['x_csv'], df['x_json'])`): the CSV-sourced
value when present and non-null, otherwise the JSON-sourced value. -/
def csvPriority {α : Type} (csvVal jsonVal : Option α) : Option α :=
  match csvVal with
  | some v => some v
  | none => jsonVal

/-- The left-join key comparison of `pd.merge(..., on=['basename','start','end'])`
(pandas matches `NaN` join keys with `NaN`, so plain `Option` equality). -/
def matchesKey (j : JRow) (c : CRow) : Bool :=
  decide (c.basename = j.basename ∧ c.start = j.start ∧ c.end_ = j.end_)

/-- The row pairs produced by the left join of the JSON table with the CSV
table: each JSON row is paired with every matching CSV row, or with `none`
(all-`NaN` right side) when no CSV row matches. -/
def joinPairs (js : List JRow) (cs : List CRow) : List (JRow × Option CRow) :=
  js.flatMap (fun j =>
    match cs.filter (matchesKey j) with
    | [] => [(j, none)]
    | ms => ms.map (fun c => (j, some c)))

/-- Resolution of one joined row into a canonical row, by the four
`np.where` assignments of `main` (species, confidence, low_freq, high_freq);
a JSON row without CSV match has `NaN` in every `_csv` column, so the JSON
values are kept. -/
def resolveRow (j : JRow) (mc : Option CRow) : Canon :=
  match mc with
  | some c =>
    { basename := j.basename
      start := j.start
      end_ := j.end_
      low_freq := csvPriority c.low_freq_csv j.low_freq_json
      high_freq := csvPriority c.high_freq_csv j.high_freq_json
      freq_mean := j.freq_mean
      species := csvPriority c.species_csv (some j.species_json)
      confidence := csvPriority c.confidence_csv j.confidence_json }
  | none =>
    { basename := j.basename
      start := j.start
      end_ := j.end_
      low_freq := j.low_freq_json
      high_freq := j.high_freq_json
      freq_mean := j.freq_mean
      species := some j.species_json
      confidence := j.confidence_json }

/-- The both-tables-non-empty branch of `main`: left join on
`(basename, start, end)` followed by the per-row CSV-priority resolution. -/
def reconcileBoth (js : List JRow) (cs : List CRow) : List Canon :=
  (joinPairs js cs).map (fun p => resolveRow p.1 p.2)

/-- Re-application of the CSV-priority fill rule to an already-canonical
row: the canonical values take the place of the JSON-sourced values, the
CSV-sourced values are unchanged. -/
def refillRow (mc : Option CRow) (r : Canon) : Canon :=
  match mc with
  | some c =>
    { r with
      species := csvPriority c.species_csv r.species
      confidence := csvPriority c.confidence_csv r.confidence
      low_freq := csvPriority c.low_freq_csv r.low_freq
      high_freq := csvPriority c.high_freq_csv r.high_freq }
  | none => r

/-- The JSON-only branch of `main` (`df = df_json.copy()`, with the neutral
`species` column created as all-`NaN`; `confidence`, `low_freq` and
`high_freq` already exist in the JSON table). -/
def jsonOnlyRows (js : List JRow) : List Canon :=
  js.map (fun j =>
    { basename := j.basename
      start := j.start
      end_ := j.end_
      low_freq := j.low_freq
      high_freq := j.high_freq
      freq_mean := j.freq_mean
      species := none
      confidence := j.confidence })

/-- The CSV-only branch of `main` (`df = df_csv.copy()` with the neutral
columns filled from the `_csv` columns, then `assign_species` applied when
the `species` column is entirely absent). -/
def csvOnlyRows (cs : List CRow) : List Canon :=
  let rows := cs.map (fun c =>
    { basename := c.basename
      start := c.start
      end_ := c.end_
      low_freq := c.low_freq_csv
      high_freq := c.high_freq_csv
      freq_mean := c.freq_mean
      species := c.species_csv
      confidence := c.confidence_csv : Canon })
  if rows.all (fun r => r.species = none)
  then rows.map (fun r => { r with species := some (assign_species r.freq_mean) })
  else rows

/-- The final species backfill of `main`
(`if 'species' not in df.columns or df['species'].isna().all(): ...`):
only when the species column is entirely absent is it recomputed per row
from `freq_mean` via `assign_species`. -/
def finalSpeciesFill (rows : List Canon) : List Canon :=
  if rows.all (fun r => r.species = none)
  then rows.map (fun r => { r with species := some (assign_species r.freq_mean) })
  else rows

/-- The canonical detection table produced by `main` of `bat_summary.py`
from the loaded JSON-path and CSV-path tables: branch selection on
emptiness, reconciliation, early exit on an empty result, and the final
species backfill.  An empty list models the "no data" early return. -/
def reconcile (js : List JRow) (cs : List CRow) : List Canon :=
  if js.isEmpty ∧ cs.isEmpty then []
  else
    let rows :=
      if cs.isEmpty then jsonOnlyRows js
      else if js.isEmpty then csvOnlyRows cs
      else reconcileBoth js cs
    if rows.isEmpty then [] else finalSpeciesFill rows

/-- First-occurrence de-duplication with an explicit seen-accumulator;
`pandas.Series.unique` keeps the first occurrence of each value, in order
of appearance. -/
def dedupFirstAux {α : Type} [DecidableEq α] (seen : List α) : List α → List α
  | [] => []
  | x :: xs =>
    if x ∈ seen then dedupFirstAux seen xs
    else x :: dedupFirstAux (x :: seen) xs

/-- First-occurrence de-duplication, the semantics of `Series.unique`. -/
def dedupFirst {α : Type} [DecidableEq α] (xs : List α) : List α :=
  dedupFirstAux [] xs

/-- The species values of the canonical rows of one basename, in row order. -/
def speciesOfBasename (rows : List Canon) (b : String) : List (Option String) :=
  (rows.filter (fun r => r.basename = b)).map (fun r => r.species)

/-- The value the per-file artifact `species_per_file.csv` associates with
one basename: `df.groupby("basename")["species"].unique()`, i.e. the
first-occurrence de-duplicated sequence of the species values of that
basename's rows. -/
def speciesPerFileEntry (rows : List Canon) (b : String) : List (Option String) :=
  dedupFirst (speciesOfBasename rows b)

/-- Lexicographic string comparison as a Boolean, used to model Python's
`sorted` on strings. -/
def strLe (a b : String) : Bool := decide (a ≤ b)

/-- The whole per-file artifact table: one row per distinct basename
(`groupby` emits group keys sorted ascending), each mapped to its
`unique()` species sequence. -/
def speciesPerFile (rows : List Canon) : List (String × List (Option String)) :=
  (List.insertionSort (· ≤ ·) (dedupFirst (rows.map (fun r => r.basename)))).map
    (fun b => (b, speciesPerFileEntry rows b))

/-- Sample JSON-path row with the given confidence, for concrete runs. -/
def sampleJRow (c : Option ℚ) : JRow :=
  { start := some 1, end_ := some 2, low_freq := some 40000, high_freq := some 42000
    freq_mean := some 41, confidence := c, source_file := "f.json", basename := "f"
    species_json := assign_species (some 41), confidence_json := c
    low_freq_json := some 40000, high_freq_json := some 42000 }

/-- Sample batch in which every confidence is absent. -/
def rowsAllNone : List JRow := [sampleJRow none, sampleJRow none]

/-- Sample batch with mixed confidences: present-high, absent, present-low. -/
def rowsMixed : List JRow := [sampleJRow (some (7/10)), sampleJRow none, sampleJRow (some (3/10))]

/-- Sample CSV-path row matching `sampleJRow` on `(basename, start, end)`,
with a species and a low frequency but no confidence and no high frequency. -/
def sampleCRow : CRow :=
  { start := some 1, end_ := some 2, low_freq := some 43000, high_freq := none
    species := some ("Pipistrellus pipistrellus"), confidence := none, freq_mean := none
    source_file := "f.csv", basename := "f"
    species_csv := some ("Pipistrellus pipistrellus"), confidence_csv := none
    low_freq_csv := some 43000, high_freq_csv := none }

/-- The JSON input of the end-to-end scenario: one file with one detection
`{start_time: 0.1, end_time: 0.3, low_freq: 40000, high_freq: 42000}` and no
`freq_mean` and no `det_prob`. -/
def scenarioJsonFiles : List (String × List JsonDet) :=
  [("rec1.json", [⟨some (1/10), some (3/10), some 40000, some 42000, none, none⟩])]

/-- CSV input whose single file holds two rows of one basename with species
`"b"` then `"a"` (in that row order). -/
def csvFilesBA : List (String × List CsvIn) :=
  [("f.csv",
    [⟨some 1, some 2, none, none, some ("b"), some (9/10), none⟩,
     ⟨some 3, some 4, none, none, some ("a"), some (8/10), none⟩])]

end BatSummary

namespace Validator

/-- The per-species physical parameters of one reference entry of
`Frequenzen.csv` (frequencies already converted to Hz by
`load_reference_db`, durations in ms). -/
structure RefParams where
  f_min : ℚ
  f_max : ℚ
  d_min : ℚ
  d_max : ℚ
deriving Repr, DecidableEq

/-- The reference database of `batch-validator.py`: lookup keys (lowercased
common and scientific names) with their parameters, ordered as inserted by
`load_reference_db` (Python dict iteration is insertion-ordered). -/
def RefDb : Type := List (String × RefParams)

/-- One detection row as `validate_row` reads it: the species label of the
`class` column, `low_freq` in Hz (absent column defaults to 0 through
`row.get('low_freq', 0)`; a `NaN` value is modelled as `none`), and the
precomputed `duration_ms` (`NaN` modelled as `none`). -/
structure VRow where
  species : String
  low_freq : Option ℚ
  duration_ms : Option ℚ
deriving Repr, DecidableEq

/-- The issue produced by one failing plausibility check, carrying the value
the code interpolates into the message (`Freq_Outlier(…kHz)` carries
`freq/1000`, `Duration_Outlier(…ms)` carries the duration). -/
inductive Issue where
  | freqOutlier (khz : ℚ)
  | durationOutlier (ms : ℚ)
deriving Repr, DecidableEq

/-- Rendering of a rational with one decimal place, modelling Python's
`f"{x:.1f}"`. -/
def fmt1 (q : ℚ) : String :=
  let n : ℤ := round (q * 10)
  toString (n / 10) ++ "." ++ toString (n % 10).natAbs

/-- The issue strings of `validate_row`
(`f"Freq_Outlier({freq/1000:.1f}kHz)"`, `f"Duration_Outlier({duration:.1f}ms)"`). -/
def Issue.render : Issue → String
  | .freqOutlier khz => "Freq_Outlier(" ++ fmt1 khz ++ "kHz)"
  | .durationOutlier ms => "Duration_Outlier(" ++ fmt1 ms ++ "ms)"

/-- Lowercasing of a string, character by character, modelling Python's
`str.lower()` on the ASCII species labels. -/
def lowerStr (s : String) : String := String.mk (s.toList.map Char.toLower)

/-- The reference lookup of `validate_row`: the first key of the database
(in insertion order) that occurs as a substring of the lowercased detected
species label (`if key in species_detected`). -/
def findRef (db : RefDb) (row : VRow) : Option RefParams :=
  (db.find? (fun kv => decide (List.IsInfix kv.1.toList (lowerStr row.species).toList))).map
    (fun kv => kv.2)

/-- The `freq` value of `validate_row`: `row.get('low_freq', 0)` with a
pandas `NaN` behaving like "no check" (`NaN > 0` is false, as is `0 > 0`). -/
def vfreq (row : VRow) : ℚ := row.low_freq.getD 0

/-- The plausibility issues of `validate_row` against matched reference
parameters: the frequency check runs only when `freq > 0`, the duration
check only when `duration_ms` is truthy and not `NaN` (so neither for an
absent duration nor for a duration of exactly 0). -/
def validationIssues (row : VRow) (m : RefParams) : List Issue :=
  (if vfreq row > 0 ∧ ¬(m.f_min ≤ vfreq row ∧ vfreq row ≤ m.f_max)
   then [Issue.freqOutlier (vfreq row / 1000)] else [])
  ++ (match row.duration_ms with
      | some d =>
        if d ≠ 0 ∧ ¬(m.d_min ≤ d ∧ d ≤ m.d_max)
        then [Issue.durationOutlier d] else []
      | none => [])

/-- The function `validate_row` of `batch-validator.py`, returning the pair
`(Validation_Status, Quality_Notes)`. -/
def validate_row (row : VRow) (db : RefDb) : String × String :=
  match findRef db row with
  | none => ("Unknown_Species", "Review_Required")
  | some m =>
    let issues := validationIssues row m
    if issues.isEmpty then ("NEXUS_Verified", "OK")
    else ("Review_Required", String.intercalate ("|") (issues.map Issue.render))

/-- Sample reference database with one entry: `pipistrellus pipistrellus`,
frequency range 45-75 kHz (in Hz), call duration 4-8 ms. -/
def sampleDb : RefDb := [("pipistrellus pipistrellus", ⟨45000, 75000, 4, 8⟩)]

/-- Sample in-range detection: matching species label, 50 kHz low frequency,
6 ms duration. -/
def rowInRange : VRow := ⟨"Pipistrellus pipistrellus", some 50000, some 6⟩

/-- Sample detection with a 12 ms duration (outside the 4-8 ms range). -/
def rowLongCall : VRow := ⟨"Pipistrellus pipistrellus", some 50000, some 12⟩

/-- Sample detection with zero low frequency and zero duration. -/
def rowZero : VRow := ⟨"Pipistrellus pipistrellus", some 0, some 0⟩

end Validator

namespace Merge3

/-- One environmental telemetry record: the reconstructed
`nexus_timestamp`, in seconds, plus its sensor payload (opaque here). -/
structure EnvRec where
  ts : ℚ
  payload : List (String × String)
deriving Repr, DecidableEq

/-- One row of the Bat/GPS master table: the `absolute_timestamp`, in
seconds, plus its other columns (opaque here). -/
structure BatRow where
  ts : ℚ
  payload : List (String × String)
deriving Repr, DecidableEq

/-- Minimiser of the absolute time distance to `t` over a candidate list;
on an exact tie the earlier list entry wins (pandas breaks the
backward/forward tie of `direction='nearest'` in favour of the backward,
i.e. earlier, record). -/
def minAbsDist (t : ℚ) : List EnvRec → Option EnvRec
  | [] => none
  | r :: rs =>
    match minAbsDist t rs with
    | none => some r
    | some b => if |b.ts - t| < |r.ts - t| then some b else some r

/-- The nearest candidate selection of
`pd.merge_asof(..., direction='nearest', tolerance=...)` for one left
timestamp: among the right records within the tolerance, the one with the
smallest absolute time difference; `none` when no record is within
tolerance. -/
def nearestWithin (tol : ℚ) (t : ℚ) (rs : List EnvRec) : Option EnvRec :=
  minAbsDist t (rs.filter (fun r => decide (|r.ts - t| ≤ tol)))

/-- The time join of `final_3way_merge.py`
(`pd.merge_asof(df_bat, df_env, ..., direction='nearest',
tolerance=pd.Timedelta(seconds=5))`): every bat row, paired with its nearest
telemetry record within tolerance, or `none` ("not available" telemetry
fields). -/
def merge_asof_nearest (tol : ℚ) (bats : List BatRow) (envs : List EnvRec) :
    List (BatRow × Option EnvRec) :=
  bats.map (fun b => (b, nearestWithin tol b.ts envs))

/-- The tolerance used by `main` of `final_3way_merge.py`: 5 seconds. -/
def MERGE_TOLERANCE : ℚ := 5

/-- Python's `sorted(set(xs))` over strings: de-duplicate, then sort
ascending. -/
def sortedSet (xs : List String) : List String :=
  List.insertionSort (· ≤ ·) xs.dedup

/-- The per-key species aggregation of `final_3way_merge.py`
(`', '.join(sorted(set(x.astype(str))))`). -/
def aggSpecies (xs : List String) : String :=
  String.intercalate (", ") (sortedSet xs)

/-- Telemetry at 10:00:00 and 10:02:00 (seconds of day). -/
def envFarApart : List EnvRec := [⟨36000, []⟩, ⟨36120, []⟩]

/-- A detection at 10:00:30 (seconds of day). -/
def batMid : BatRow := ⟨36030, []⟩

/-- Telemetry records 2 s before and 4 s after the detection at 10:00:30. -/
def envClose : List EnvRec := [⟨36028, []⟩, ⟨36034, []⟩]

end Merge3

/-- Written from the spec's words for §4.3 step 4 ("a per-file table mapping
`basename -> sorted, de-duplicated, comma-joined list of distinct species
observed in that file`"): the sorted, de-duplicated sequence of the species
values of one basename's canonical rows, a missing species rendered `"nan"`
as pandas `astype(str)` does.  To be compared against the artifact the
reconciler actually emits (`BatSummary.speciesPerFileEntry`). -/
def sortedDistinctSpecies (rows : List BatSummary.Canon) (b : String) : List String :=
  Merge3.sortedSet ((BatSummary.speciesOfBasename rows b).map (fun o => o.getD ("nan")))

namespace Autostart

/-- The plausibility bounding box `is_plausible_europe` of
`bat_autostart_final.py`: latitude in `[35, 70]`, longitude in `[-10, 30]`;
false when either coordinate is missing. -/
def is_plausible_europe (lat lon : Option ℚ) : Bool :=
  match lat, lon with
  | some la, some lo => decide (35 ≤ la ∧ la ≤ 70 ∧ -10 ≤ lo ∧ lo ≤ 30)
  | _, _ => false

/-- One successfully parsed GUANO position candidate (the loop body only
proceeds when both latitude and longitude parsed; the altitude may be
missing). -/
structure ParsedPos where
  lat : ℚ
  lon : ℚ
  alt : Option ℚ
deriving Repr, DecidableEq

/-- The position result of `get_position`: coordinates, altitude (0.0 when
unknown) and the provenance `source_tag`. -/
structure PosResult where
  lat : ℚ
  lon : ℚ
  alt : ℚ
  tag : String
deriving Repr, DecidableEq

/-- The acceptance decision of the GUANO key loop for one candidate: accept
the raw pair when plausible, else accept the swapped pair when that is
plausible (tagging the correction), else reject the candidate and continue
with the next key. -/
def tryCandidate (c : ParsedPos) : Option (ℚ × ℚ × Option ℚ × String) :=
  if is_plausible_europe (some c.lat) (some c.lon) then
    some (c.lat, c.lon, c.alt, "GUANO")
  else if is_plausible_europe (some c.lon) (some c.lat) then
    some (c.lon, c.lat, c.alt, "GUANO (Lat/Lon swapped)")
  else none

/-- The GUANO path of `get_position`: the first candidate (in key order)
accepted by `tryCandidate`, then the optional `Loc Elevation` override
(which appends `" (+Elev)"` to the tag), with a missing altitude defaulting
to 0.0. -/
def get_position_guano (cands : List ParsedPos) (elev : Option ℚ) : Option PosResult :=
  (cands.findSome? tryCandidate).map (fun r =>
    match r with
    | (la, lo, alt0, tag) =>
      match elev with
      | some e => { lat := la, lon := lo, alt := e, tag := tag ++ " (+Elev)" }
      | none => { lat := la, lon := lo, alt := alt0.getD 0, tag := tag })

/-- The acceptance filter of `main` of `bat_autostart_final.py`: a recovered
position enters `points_for_kml` only when `is_plausible_europe(lat, lon)`
holds. -/
def mainAccepted (ps : List (Option PosResult)) : List PosResult :=
  (ps.filterMap id).filter (fun p => is_plausible_europe (some p.lat) (some p.lon))

/-- A parsed candidate whose raw pair `(8, 48)` fails the bounding box but
whose swapped pair `(48, 8)` passes it. -/
def candSwapped : ParsedPos := ⟨8, 48, none⟩

end Autostart

/-! ## Theorems -/

open BatSummary Validator Merge3 Autostart

/-- C2: for every input to the species classifier: a non-numeric input
yields the sentinel (spelled `"unbestimmt"` in the code); a numeric input
yields the species name of the first band in the configured ordered band
list whose closed interval contains it, so overlapping bands are resolved
by list order (in particular `classify(40.0)` with `("A",35,45)` listed
before `("B",38,50)` returns `"A"`); and the trailing catch-all band
`(0, 125)` guarantees a defined species result for every numeric input in
`[0, 125]`. -/
theorem C2_classifier_first_band :
    (assign_species none = "unbestimmt") ∧
    (∀ (pre post : List BandRule) (r : BandRule) (x : ℚ),
      (∀ r' ∈ pre, r'.contains x = false) → r.contains x = true →
      assign_species_with (pre ++ r :: post) (some x) = r.name) ∧
    (assign_species_with [⟨"A", 35, 45⟩, ⟨"B", 38, 50⟩] (some 40) = "A") ∧
    (∀ x : ℚ, 0 ≤ x → x ≤ 125 → assign_species (some x) ≠ "unbestimmt") := by
  refine ⟨rfl, ?_, ?_, ?_⟩
  · intro pre post r x hpre hr
    simp only [assign_species_with]
    have hcons : List.find? (fun r => r.contains x) (r :: post) = some r :=
      List.find?_cons_of_pos post hr
    rw [List.find?_append, List.find?_eq_none.mpr (fun a ha => by simp [hpre a ha]),
      Option.none_or, hcons]
  · norm_num [assign_species_with, BandRule.contains, List.find?_cons]
  · intro x h0 h1
    have hex : ∃ r ∈ SPECIES_RULES, r.contains x := by
      refine ⟨⟨"Unknown/Fallback", 0, 125⟩, by simp [SPECIES_RULES], ?_⟩
      simp only [BandRule.contains, decide_eq_true_eq]
      exact ⟨h0, h1⟩
    have hsome : (SPECIES_RULES.find? (fun r => r.contains x)).isSome := by
      rw [List.find?_isSome]
      simpa using hex
    obtain ⟨r, hr⟩ := Option.isSome_iff_exists.mp hsome
    have hmem : r ∈ SPECIES_RULES := List.mem_of_find?_eq_some hr
    simp only [assign_species, assign_species_with]
    rw [hr]
    fin_cases hmem <;> simp

/-- Witness for C2: the second band wins when the first band does not
contain the input, and 41 kHz gets a defined species. -/
theorem C2_classifier_first_band_witness :
    assign_species_with ([⟨"A", 35, 45⟩] ++ ⟨"B", 46, 50⟩ :: []) (some 47) = "B" ∧
    assign_species (some 41) ≠ "unbestimmt" := by
  constructor
  · exact C2_classifier_first_band.2.1 [⟨"A", 35, 45⟩] [] ⟨"B", 46, 50⟩ 47
      (by intro r' hr'; simp at hr'; subst hr'; norm_num [BandRule.contains])
      (by norm_num [BandRule.contains])
  · exact C2_classifier_first_band.2.2.2 41 (by norm_num) (by norm_num)

/-- C3: the JSON path's confidence-threshold decision is global over the
batch: when every record's confidence is absent, the filter drops nothing;
when at least one confidence is present, exactly the records with a present
confidence `≥ 0.5` are kept (so records with an absent confidence are then
dropped); and the CSV loading path drops no row at all. -/
theorem C3_confidence_filter_global :
    (∀ rows : List JRow,
      (∀ r ∈ rows, r.confidence = none) → confidenceFilter SCORE_THRESHOLD rows = rows) ∧
    (∀ rows : List JRow, (∃ r ∈ rows, r.confidence ≠ none) →
      ∀ r, r ∈ confidenceFilter SCORE_THRESHOLD rows ↔
        r ∈ rows ∧ ∃ c, r.confidence = some c ∧ SCORE_THRESHOLD ≤ c) ∧
    (∀ files : List (String × List CsvIn),
      (load_all_csv files).length = (files.map (fun fd => fd.2.length)).sum) := by
  refine ⟨?_, ?_, ?_⟩
  · intro rows h
    have hall : rows.all (fun r => decide (r.confidence = none)) = true := by
      rw [List.all_eq_true]
      intro r hr
      simp [h r hr]
    simp [confidenceFilter, hall]
  · intro rows hex r
    have hall : rows.all (fun r => decide (r.confidence = none)) = false := by
      obtain ⟨r0, hr0, hc0⟩ := hex
      rw [List.all_eq_false]
      exact ⟨r0, hr0, by simpa using hc0⟩
    simp only [confidenceFilter]
    rw [if_neg (by simpa using hall)]
    rw [List.mem_filter]
    constructor
    · rintro ⟨hm, hb⟩
      refine ⟨hm, ?_⟩
      cases hc : r.confidence with
      | none => rw [hc] at hb; simp at hb
      | some c =>
        rw [hc] at hb
        simp at hb
        exact ⟨c, rfl, hb⟩
    · rintro ⟨hm, c, hc, hle⟩
      refine ⟨hm, ?_⟩
      rw [hc]
      simpa using hle
  · intro files
    induction files with
    | nil => rfl
    | cons fd fds ih =>
      simp [load_all_csv, List.flatMap_cons] at ih ⊢
      omega

/-- Witness for C3: an all-absent batch passes through untouched, and in a
mixed batch the membership criterion applies to a concrete high-confidence
row. -/
theorem C3_confidence_filter_global_witness :
    confidenceFilter SCORE_THRESHOLD rowsAllNone = rowsAllNone ∧
    (sampleJRow (some (7/10)) ∈ confidenceFilter SCORE_THRESHOLD rowsMixed ↔
      sampleJRow (some (7/10)) ∈ rowsMixed ∧
      ∃ c, (sampleJRow (some (7/10))).confidence = some c ∧ SCORE_THRESHOLD ≤ c) := by
  constructor
  · exact C3_confidence_filter_global.1 rowsAllNone
      (by
        intro r hr
        simp only [rowsAllNone, List.mem_cons, List.not_mem_nil, or_false] at hr
        rcases hr with h | h <;> (subst h; rfl))
  · exact C3_confidence_filter_global.2.1 rowsMixed
      ⟨sampleJRow (some (7/10)), by simp [rowsMixed], by simp [sampleJRow]⟩ _

/-- Helper: 41 kHz falls in the `Pipistrellus nathusii` band (37-50), the
first matching entry of `SPECIES_RULES`. -/
theorem assign_species_41 : assign_species (some 41) = "Pipistrellus nathusii" := by
  norm_num [assign_species, assign_species_with, SPECIES_RULES, BandRule.contains,
    List.find?_cons]

/-- C6: the JSON loader derives `freq_mean_khz` as `freq_mean/1000` when the
field is present, else `(low_freq + high_freq)/2000` when both band edges
are present, else not-available; and the end-to-end scenario — one
detection `{start_time: 0.1, end_time: 0.3, low_freq: 40000,
high_freq: 42000}`, no CSV input, confidence absent across the batch —
passes through unfiltered as exactly one canonical row with
`freq_mean_khz = 41.0`. -/
theorem C6_freq_mean_derivation :
    (∀ (d : JsonDet) (fm : ℚ), d.freq_mean = some fm →
      deriveFreqMean d = some (fm / 1000)) ∧
    (∀ (d : JsonDet) (l h : ℚ), d.freq_mean = none →
      d.low_freq = some l → d.high_freq = some h →
      deriveFreqMean d = some ((l + h) / 2000)) ∧
    (∀ d : JsonDet, d.freq_mean = none →
      (d.low_freq = none ∨ d.high_freq = none) → deriveFreqMean d = none) ∧
    (reconcile (load_all_json scenarioJsonFiles SCORE_THRESHOLD) (load_all_csv []) =
      [{ basename := "rec1", start := some (1/10), end_ := some (3/10),
         low_freq := some 40000, high_freq := some 42000, freq_mean := some 41,
         species := some ("Pipistrellus nathusii"), confidence := none }]) := by
  refine ⟨?_, ?_, ?_, ?_⟩
  · intro d fm h
    obtain ⟨s, e, l, hf, f, dp⟩ := d
    simp only at h
    subst h
    rfl
  · intro d l h h1 h2 h3
    obtain ⟨s, e, lf, hf, f, dp⟩ := d
    simp only at h1 h2 h3
    subst h1; subst h2; subst h3
    rfl
  · intro d h1 h2
    obtain ⟨s, e, lf, hf, f, dp⟩ := d
    simp only at h1 h2
    subst h1
    rcases h2 with h | h
    · subst h
      cases hf <;> rfl
    · subst h
      cases lf <;> rfl
  · have h41 : ((40000 : ℚ) + 42000) / 2000 = 41 := by norm_num
    have hstem : splitextStem ("rec1.json") = "rec1" := by decide
    simp [reconcile, load_all_json, load_all_csv, scenarioJsonFiles, mkJRowBase,
      deriveFreqMean, confidenceFilter, jsonOnlyRows, finalSpeciesFill,
      hstem, h41, assign_species_41]

/-- Witness for C6: the three derivation rules evaluated at concrete
detections. -/
theorem C6_freq_mean_derivation_witness :
    deriveFreqMean ⟨some (1/10), some (3/10), some 40000, some 42000, some 39000, none⟩ =
      some (39000 / 1000) ∧
    deriveFreqMean ⟨some (1/10), some (3/10), some 40000, some 42000, none, none⟩ =
      some ((40000 + 42000) / 2000) ∧
    deriveFreqMean ⟨some (1/10), some (3/10), none, some 42000, none, none⟩ = none := by
  refine ⟨?_, ?_, ?_⟩
  · exact C6_freq_mean_derivation.1 _ 39000 rfl
  · exact C6_freq_mean_derivation.2.1 _ 40000 42000 rfl rfl rfl
  · exact C6_freq_mean_derivation.2.2.1 _ rfl (Or.inl rfl)

/-- Helper: the left join emits at least one pair per JSON row, so it is
non-empty whenever the JSON table is. -/
theorem joinPairs_ne_nil (js : List JRow) (cs : List CRow) (hj : js ≠ []) :
    joinPairs js cs ≠ [] := by
  obtain ⟨j, js', rfl⟩ := List.exists_cons_of_ne_nil hj
  simp only [joinPairs, List.flatMap_cons]
  intro hcontra
  rcases List.append_eq_nil.mp hcontra with ⟨h1, h2⟩
  revert h1
  cases hf : cs.filter (matchesKey j) with
  | nil => simp
  | cons c ms => simp

/-- Helper: a resolved row always carries a species value (the JSON side
contributes `species_json`, which is a string, when the CSV side is null). -/
theorem resolveRow_species_isSome (j : JRow) (mc : Option CRow) :
    (resolveRow j mc).species ≠ none := by
  cases mc with
  | none => simp [resolveRow]
  | some c =>
    simp only [resolveRow, csvPriority]
    cases c.species_csv <;> simp

/-- Helper: with both loaded tables non-empty, `main` takes the left-join
branch and the final species backfill is a no-op, so the canonical table is
exactly the resolved left join. -/
theorem reconcile_of_both (js : List JRow) (cs : List CRow) (hj : js ≠ []) (hc : cs ≠ []) :
    reconcile js cs = reconcileBoth js cs := by
  have hje : js.isEmpty = false := by simpa [List.isEmpty_iff] using hj
  have hce : cs.isEmpty = false := by simpa [List.isEmpty_iff] using hc
  have hne : reconcileBoth js cs ≠ [] := by
    simp only [reconcileBoth]
    intro h
    exact joinPairs_ne_nil js cs hj (List.map_eq_nil_iff.mp h)
  have hre : (reconcileBoth js cs).isEmpty = false := by simpa [List.isEmpty_iff] using hne
  have hfill : finalSpeciesFill (reconcileBoth js cs) = reconcileBoth js cs := by
    simp only [finalSpeciesFill]
    rw [if_neg]
    intro hall
    obtain ⟨r0, hr0⟩ := List.exists_mem_of_ne_nil _ hne
    have := (List.all_eq_true.mp hall) r0 hr0
    obtain ⟨p, hp, rfl⟩ := List.mem_map.mp hr0
    exact resolveRow_species_isSome p.1 p.2 (by simpa using this)
  simp only [reconcile, hje, hce, hre, Bool.false_and, if_neg, ite_false, hfill]
  simp [hje, hce, hre]
  exact hfill

/-- C1: when both loaded tables are non-empty, every canonical row comes
from one left-join pair, and for each of the four contested fields the
canonical value is the CSV-sourced value when present and non-null and the
JSON-sourced value otherwise; per-row, a JSON row with a CSV match takes
the CSV values while a JSON row without a CSV match keeps its JSON values
unchanged. -/
theorem C1_csv_priority_per_row :
    ∀ (js : List JRow) (cs : List CRow), js ≠ [] → cs ≠ [] →
    ∀ r ∈ reconcile js cs, ∃ p ∈ joinPairs js cs, r = resolveRow p.1 p.2 ∧
      (match p.2 with
       | some c =>
         (∀ v, c.species_csv = some v → r.species = some v) ∧
         (c.species_csv = none → r.species = some p.1.species_json) ∧
         (∀ v, c.confidence_csv = some v → r.confidence = some v) ∧
         (c.confidence_csv = none → r.confidence = p.1.confidence_json) ∧
         (∀ v, c.low_freq_csv = some v → r.low_freq = some v) ∧
         (c.low_freq_csv = none → r.low_freq = p.1.low_freq_json) ∧
         (∀ v, c.high_freq_csv = some v → r.high_freq = some v) ∧
         (c.high_freq_csv = none → r.high_freq = p.1.high_freq_json)
       | none =>
         r.species = some p.1.species_json ∧ r.confidence = p.1.confidence_json ∧
         r.low_freq = p.1.low_freq_json ∧ r.high_freq = p.1.high_freq_json) := by
  intro js cs hj hc r hr
  rw [reconcile_of_both js cs hj hc] at hr
  obtain ⟨p, hp, rfl⟩ := List.mem_map.mp hr
  refine ⟨p, hp, rfl, ?_⟩
  obtain ⟨j, mc⟩ := p
  cases mc with
  | none => simp [resolveRow]
  | some c =>
    refine ⟨?_, ?_, ?_, ?_, ?_, ?_, ?_, ?_⟩ <;>
      simp only [resolveRow, csvPriority]
    · intro v hv; rw [hv]
    · intro hv; rw [hv]
    · intro v hv; rw [hv]
    · intro hv; rw [hv]
    · intro v hv; rw [hv]
    · intro hv; rw [hv]
    · intro v hv; rw [hv]
    · intro hv; rw [hv]

/-- Witness for C1: the one-row JSON table joined with its one-row CSV
match satisfies the per-row resolution property. -/
theorem C1_csv_priority_per_row_witness :
    ∃ p ∈ joinPairs [sampleJRow none] [sampleCRow],
      resolveRow (sampleJRow none) (some sampleCRow) = resolveRow p.1 p.2 ∧
      (match p.2 with
       | some c =>
         (∀ v, c.species_csv = some v →
           (resolveRow (sampleJRow none) (some sampleCRow)).species = some v) ∧
         (c.species_csv = none →
           (resolveRow (sampleJRow none) (some sampleCRow)).species = some p.1.species_json) ∧
         (∀ v, c.confidence_csv = some v →
           (resolveRow (sampleJRow none) (some sampleCRow)).confidence = some v) ∧
         (c.confidence_csv = none →
           (resolveRow (sampleJRow none) (some sampleCRow)).confidence = p.1.confidence_json) ∧
         (∀ v, c.low_freq_csv = some v →
           (resolveRow (sampleJRow none) (some sampleCRow)).low_freq = some v) ∧
         (c.low_freq_csv = none →
           (resolveRow (sampleJRow none) (some sampleCRow)).low_freq = p.1.low_freq_json) ∧
         (∀ v, c.high_freq_csv = some v →
           (resolveRow (sampleJRow none) (some sampleCRow)).high_freq = some v) ∧
         (c.high_freq_csv = none →
           (resolveRow (sampleJRow none) (some sampleCRow)).high_freq = p.1.high_freq_json)
       | none =>
         (resolveRow (sampleJRow none) (some sampleCRow)).species = some p.1.species_json ∧
         (resolveRow (sampleJRow none) (some sampleCRow)).confidence = p.1.confidence_json ∧
         (resolveRow (sampleJRow none) (some sampleCRow)).low_freq = p.1.low_freq_json ∧
         (resolveRow (sampleJRow none) (some sampleCRow)).high_freq = p.1.high_freq_json) := by
  refine C1_csv_priority_per_row [sampleJRow none] [sampleCRow] (by simp) (by simp) _ ?_
  rw [reconcile_of_both _ _ (by simp) (by simp)]
  have hjp : joinPairs [sampleJRow none] [sampleCRow] = [(sampleJRow none, some sampleCRow)] := by
    simp [joinPairs, matchesKey, sampleJRow, sampleCRow]
  simp [reconcileBoth, hjp]

/-- C7: the CSV-priority field-resolution rule is idempotent: applying the
rule a second time — with the canonical output in the JSON slot and the same
CSV-sourced values — changes no value, on the single rule, on a whole
resolved row, and on a whole reconciled table. -/
theorem C7_reconciliation_idempotent :
    (∀ (α : Type) (c j : Option α), csvPriority c (csvPriority c j) = csvPriority c j) ∧
    (∀ (j : JRow) (mc : Option CRow), refillRow mc (resolveRow j mc) = resolveRow j mc) ∧
    (∀ pairs : List (JRow × Option CRow),
      pairs.map (fun p => refillRow p.2 (resolveRow p.1 p.2)) =
        pairs.map (fun p => resolveRow p.1 p.2)) := by
  have hpri : ∀ (α : Type) (c j : Option α),
      csvPriority c (csvPriority c j) = csvPriority c j := by
    intro α c j
    cases c <;> rfl
  have hrow : ∀ (j : JRow) (mc : Option CRow),
      refillRow mc (resolveRow j mc) = resolveRow j mc := by
    intro j mc
    cases mc with
    | none => rfl
    | some c => simp [resolveRow, refillRow, hpri]
  exact ⟨hpri, hrow, fun pairs => List.map_congr_left (fun p _ => hrow p.1 p.2)⟩

/-- Helper: the reference lookup returns the first entry, in insertion
order, whose key is a substring of the lowercased species label. -/
theorem findRef_first (pre post : List (String × RefParams)) (k : String) (m : RefParams)
    (row : VRow)
    (hpre : ∀ kv ∈ pre, ¬ List.IsInfix kv.1.toList (lowerStr row.species).toList)
    (hk : List.IsInfix k.toList (lowerStr row.species).toList) :
    findRef (pre ++ (k, m) :: post) row = some m := by
  simp only [findRef]
  have hcons : List.find?
      (fun kv => decide (List.IsInfix kv.1.toList (lowerStr row.species).toList))
      ((k, m) :: post) = some (k, m) :=
    List.find?_cons_of_pos post (by simpa using hk)
  rw [List.find?_append,
    List.find?_eq_none.mpr (fun kv hkv => by simpa using hpre kv hkv),
    Option.none_or, hcons]
  rfl

/-- Helper: any detection whose label contains `pipistrellus pipistrellus`
matches the single entry of the sample reference database. -/
theorem findRef_sampleDb (row : VRow)
    (h : List.IsInfix ("pipistrellus pipistrellus").toList (lowerStr row.species).toList) :
    findRef sampleDb row = some ⟨45000, 75000, 4, 8⟩ :=
  findRef_first [] [] "pipistrellus pipistrellus" ⟨45000, 75000, 4, 8⟩ row (by simp) h

/-- C5: the validator's verdicts: the species lookup is a case-insensitive
substring match won by the first reference entry in insertion order; no
match yields `("Unknown_Species", "Review_Required")`; a match with no
failing check yields `("NEXUS_Verified", "OK")`; a match with failing
checks yields `("Review_Required", issues joined by "|")`; and a detection
with `low_freq_hz = 0` never produces a `Freq_Outlier` issue, because the
frequency check only runs when `low_freq_hz > 0`. -/
theorem C5_validator_verdicts :
    (∀ (pre post : List (String × RefParams)) (k : String) (m : RefParams) (row : VRow),
      (∀ kv ∈ pre, ¬ List.IsInfix kv.1.toList (lowerStr row.species).toList) →
      List.IsInfix k.toList (lowerStr row.species).toList →
      findRef (pre ++ (k, m) :: post) row = some m) ∧
    (∀ (db : RefDb) (row : VRow), findRef db row = none →
      validate_row row db = ("Unknown_Species", "Review_Required")) ∧
    (∀ (db : RefDb) (row : VRow) (m : RefParams), findRef db row = some m →
      validationIssues row m = [] → validate_row row db = ("NEXUS_Verified", "OK")) ∧
    (∀ (db : RefDb) (row : VRow) (m : RefParams), findRef db row = some m →
      validationIssues row m ≠ [] →
      validate_row row db = ("Review_Required",
        String.intercalate ("|") ((validationIssues row m).map Issue.render))) ∧
    (∀ (row : VRow) (m : RefParams), vfreq row = 0 →
      ∀ i ∈ validationIssues row m, ∀ q, i ≠ Issue.freqOutlier q) := by
  refine ⟨findRef_first, ?_, ?_, ?_, ?_⟩
  · intro db row h
    simp [validate_row, h]
  · intro db row m h h2
    simp [validate_row, h, h2]
  · intro db row m h h2
    simp [validate_row, h, h2]
  · intro row m h i hi q
    simp only [validationIssues, h] at hi
    rcases List.mem_append.mp hi with h1 | h2
    · split at h1
      · rename_i hg
        exact absurd hg.1 (by norm_num)
      · simp at h1
    · split at h2
      · rename_i d hd
        split at h2
        · simp at h2
          subst h2
          simp
        · simp at h2
      · simp at h2

/-- Witness for C5: the sample reference entry (45-75 kHz, 4-8 ms) verifies
the in-range detection and flags the 12 ms detection. -/
theorem C5_validator_verdicts_witness :
    findRef sampleDb rowInRange = some ⟨45000, 75000, 4, 8⟩ ∧
    validate_row rowInRange sampleDb = ("NEXUS_Verified", "OK") ∧
    validate_row rowLongCall sampleDb = ("Review_Required",
      String.intercalate ("|")
        ((validationIssues rowLongCall ⟨45000, 75000, 4, 8⟩).map Issue.render)) := by
  have hfind1 : findRef sampleDb rowInRange = some ⟨45000, 75000, 4, 8⟩ :=
    C5_validator_verdicts.1 [] [] "pipistrellus pipistrellus" ⟨45000, 75000, 4, 8⟩
      rowInRange (by simp) (by decide)
  have hfind2 : findRef sampleDb rowLongCall = some ⟨45000, 75000, 4, 8⟩ :=
    C5_validator_verdicts.1 [] [] "pipistrellus pipistrellus" ⟨45000, 75000, 4, 8⟩
      rowLongCall (by simp) (by decide)
  refine ⟨hfind1, ?_, ?_⟩
  · exact C5_validator_verdicts.2.2.1 sampleDb rowInRange _ hfind1
      (by norm_num [validationIssues, vfreq, rowInRange])
  · exact C5_validator_verdicts.2.2.2.1 sampleDb rowLongCall _ hfind2
      (by norm_num [validationIssues, vfreq, rowLongCall])

/-- C10: the duration check treats a duration of exactly 0 ms like an
absent duration: no `Duration_Outlier` issue is ever produced for such a
row, and a matched species with 0 ms duration and zero (or in-range) low
frequency is reported `NEXUS_Verified`/`OK` even when the reference entry's
minimum duration is positive. -/
theorem C10_zero_duration_skipped :
    (∀ (row : VRow) (m : RefParams),
      (row.duration_ms = some 0 ∨ row.duration_ms = none) →
      ∀ i ∈ validationIssues row m, ∀ q, i ≠ Issue.durationOutlier q) ∧
    (∀ (db : RefDb) (row : VRow) (m : RefParams), findRef db row = some m →
      (row.duration_ms = some 0 ∨ row.duration_ms = none) →
      0 < m.d_min →
      (vfreq row = 0 ∨ (m.f_min ≤ vfreq row ∧ vfreq row ≤ m.f_max)) →
      validate_row row db = ("NEXUS_Verified", "OK")) := by
  have hdur : ∀ (row : VRow) (m : RefParams),
      (row.duration_ms = some 0 ∨ row.duration_ms = none) →
      (match row.duration_ms with
       | some d => if d ≠ 0 ∧ ¬(m.d_min ≤ d ∧ d ≤ m.d_max)
           then [Issue.durationOutlier d] else []
       | none => ([] : List Issue)) = [] := by
    intro row m hd
    rcases hd with h | h
    · rw [h]
      norm_num
    · rw [h]
  constructor
  · intro row m hd i hi q
    simp only [validationIssues] at hi
    rw [hdur row m hd] at hi
    rcases List.mem_append.mp hi with h1 | h1
    · split at h1
      · simp at h1
        subst h1
        simp
      · simp at h1
    · simp at h1
  · intro db row m hfind hd hdmin hfreq
    have hiss : validationIssues row m = [] := by
      simp only [validationIssues]
      rw [hdur row m hd, List.append_nil]
      rw [if_neg]
      rintro ⟨hpos, hout⟩
      rcases hfreq with h | h
      · rw [h] at hpos
        exact absurd hpos (by norm_num)
      · exact hout h
    simp [validate_row, hfind, hiss]

/-- Witness for C10: the matched detection with 0 Hz low frequency and 0 ms
duration is verified although the reference minimum duration is 4 ms. -/
theorem C10_zero_duration_skipped_witness :
    validate_row rowZero sampleDb = ("NEXUS_Verified", "OK") :=
  C10_zero_duration_skipped.2 sampleDb rowZero ⟨45000, 75000, 4, 8⟩
    (findRef_sampleDb rowZero (by decide)) (Or.inl rfl) (by norm_num) (Or.inl rfl)

/-- Helper: the distance minimiser returns `none` exactly on the empty
candidate list. -/
theorem minAbsDist_eq_none (t : ℚ) (l : List EnvRec) : minAbsDist t l = none ↔ l = [] := by
  induction l with
  | nil => simp [minAbsDist]
  | cons r rs ih =>
    cases h : minAbsDist t rs with
    | none => simp [minAbsDist, h]
    | some b =>
      simp only [minAbsDist, h]
      constructor
      · intro hc
        by_cases hlt : |b.ts - t| < |r.ts - t|
        · rw [if_pos hlt] at hc
          exact absurd hc (by simp)
        · rw [if_neg hlt] at hc
          exact absurd hc (by simp)
      · intro hc
        exact absurd hc (by simp)

/-- Helper: the distance minimiser picks one of the candidates. -/
theorem minAbsDist_mem (t : ℚ) (l : List EnvRec) :
    ∀ m, minAbsDist t l = some m → m ∈ l := by
  induction l with
  | nil => intro m h; simp [minAbsDist] at h
  | cons r rs ih =>
    intro m h
    cases hm : minAbsDist t rs with
    | none =>
      simp only [minAbsDist, hm] at h
      simp at h
      simp [h]
    | some b =>
      simp only [minAbsDist, hm] at h
      by_cases hlt : |b.ts - t| < |r.ts - t|
      · rw [if_pos hlt] at h
        simp at h
        subst h
        exact List.mem_cons_of_mem r (ih _ hm)
      · rw [if_neg hlt] at h
        simp at h
        simp [h]

/-- Helper: the distance minimiser is minimal over the candidates. -/
theorem minAbsDist_min (t : ℚ) (l : List EnvRec) :
    ∀ m, minAbsDist t l = some m → ∀ r ∈ l, |m.ts - t| ≤ |r.ts - t| := by
  induction l with
  | nil => intro m h; simp [minAbsDist] at h
  | cons r rs ih =>
    intro m h x hx
    cases hm : minAbsDist t rs with
    | none =>
      simp only [minAbsDist, hm] at h
      simp at h
      subst h
      have hrs := (minAbsDist_eq_none t rs).mp hm
      subst hrs
      simp at hx
      subst hx
      exact le_refl _
    | some b =>
      simp only [minAbsDist, hm] at h
      have hble := ih b hm
      by_cases hlt : |b.ts - t| < |r.ts - t|
      · rw [if_pos hlt] at h
        simp at h
        subst h
        rcases List.mem_cons.mp hx with hx | hx
        · subst hx
          exact le_of_lt hlt
        · exact hble x hx
      · rw [if_neg hlt] at h
        simp at h
        subst h
        push_neg at hlt
        rcases List.mem_cons.mp hx with hx | hx
        · subst hx
          exact le_refl _
        · exact le_trans hlt (hble x hx)

/-- C4: in the temporal merge, a joined telemetry record is never more than
the tolerance away from the detection's absolute timestamp and is the
nearest record of the telemetry series (forward or backward); a detection
with no telemetry record within tolerance is joined with `none` ("not
available" fields) rather than an error; and the concrete example —
telemetry at 10:00:00 and 10:02:00, detection at 10:00:30, 5 s tolerance —
yields no match. -/
theorem C4_nearest_join_within_tolerance :
    (∀ (tol : ℚ) (bats : List BatRow) (envs : List EnvRec) (b : BatRow) (m : EnvRec),
      (b, some m) ∈ merge_asof_nearest tol bats envs →
      |m.ts - b.ts| ≤ tol ∧ ∀ r ∈ envs, |m.ts - b.ts| ≤ |r.ts - b.ts|) ∧
    (∀ (tol : ℚ) (bats : List BatRow) (envs : List EnvRec) (b : BatRow),
      b ∈ bats → (∀ r ∈ envs, tol < |r.ts - b.ts|) →
      (b, none) ∈ merge_asof_nearest tol bats envs) ∧
    (merge_asof_nearest MERGE_TOLERANCE [batMid] envFarApart = [(batMid, none)]) := by
  refine ⟨?_, ?_, ?_⟩
  · intro tol bats envs b m hmem
    obtain ⟨b', hb', heq⟩ := List.mem_map.mp hmem
    have hb : b' = b := congrArg Prod.fst heq
    have hm : nearestWithin tol b.ts envs = some m := by
      have h2 := congrArg Prod.snd heq
      rw [hb] at h2
      exact h2
    simp only [nearestWithin] at hm
    have hmemf := minAbsDist_mem _ _ _ hm
    have htol : |m.ts - b.ts| ≤ tol := by
      have := List.mem_filter.mp hmemf
      simpa using this.2
    refine ⟨htol, ?_⟩
    intro r hr
    by_cases hrt : |r.ts - b.ts| ≤ tol
    · exact minAbsDist_min _ _ _ hm r (List.mem_filter.mpr ⟨hr, by simpa using hrt⟩)
    · push_neg at hrt
      exact le_trans htol (le_of_lt hrt)
  · intro tol bats envs b hb hfar
    have hfil : envs.filter (fun r => decide (|r.ts - b.ts| ≤ tol)) = [] := by
      rw [List.filter_eq_nil_iff]
      intro r hr
      simpa using not_le.mpr (hfar r hr)
    have hnone : nearestWithin tol b.ts envs = none := by
      simp [nearestWithin, hfil, minAbsDist]
    exact List.mem_map.mpr ⟨b, hb, by rw [hnone]⟩
  · have h1 : ¬ (|(36000 : ℚ) - 36030| ≤ 5) := by norm_num
    have h2 : ¬ (|(36120 : ℚ) - 36030| ≤ 5) := by norm_num
    simp [merge_asof_nearest, nearestWithin, envFarApart, batMid, MERGE_TOLERANCE,
      minAbsDist, List.filter, h1, h2]

/-- Witness for C4: the record 2 s away is matched (and is within the 5 s
tolerance), while the detection between telemetry rows 30 s and 90 s away
is joined with `none`. -/
theorem C4_nearest_join_within_tolerance_witness :
    (|(36028 : ℚ) - 36030| ≤ MERGE_TOLERANCE) ∧
    ((batMid, none) ∈ merge_asof_nearest MERGE_TOLERANCE [batMid] envFarApart) := by
  constructor
  · have hmem : (batMid, some (⟨36028, []⟩ : EnvRec)) ∈
        merge_asof_nearest MERGE_TOLERANCE [batMid] envClose := by
      have h1 : |(36028 : ℚ) - 36030| ≤ 5 := by norm_num
      have h2 : |(36034 : ℚ) - 36030| ≤ 5 := by norm_num
      have h3 : ¬(|(36034 : ℚ) - 36030| < |(36028 : ℚ) - 36030|) := by norm_num
      simp [merge_asof_nearest, nearestWithin, minAbsDist, envClose, batMid,
        MERGE_TOLERANCE, List.filter, h1, h2, h3]
    exact (C4_nearest_join_within_tolerance.1 MERGE_TOLERANCE [batMid] envClose
      batMid ⟨36028, []⟩ hmem).1
  · exact C4_nearest_join_within_tolerance.2.1 MERGE_TOLERANCE [batMid] envFarApart
      batMid (by simp)
      (by
        intro r hr
        simp [envFarApart] at hr
        rcases hr with h | h <;> subst h <;> norm_num [batMid, MERGE_TOLERANCE])

/-- C8: a GPS position enters the output only if it lies inside the
plausibility bounding box (latitude 35-70, longitude -10..30); and the
GUANO extraction accepts, for its first usable candidate, either the raw
pair (tag `GUANO`) or — exactly when the raw pair fails the box and the
swapped pair passes it — the swapped pair, with the provenance tag
recording the swap; either way the accepted pair itself passes the box. -/
theorem C8_gps_bounding_box_swap :
    (∀ (ps : List (Option PosResult)) (p : PosResult), p ∈ mainAccepted ps →
      is_plausible_europe (some p.lat) (some p.lon) = true) ∧
    (∀ (cands : List ParsedPos) (elev : Option ℚ) (r : PosResult),
      get_position_guano cands elev = some r → ∃ c ∈ cands,
        ((is_plausible_europe (some c.lat) (some c.lon) = true ∧
          r.lat = c.lat ∧ r.lon = c.lon ∧
          (r.tag = "GUANO" ∨ r.tag = "GUANO (+Elev)")) ∨
         (is_plausible_europe (some c.lat) (some c.lon) = false ∧
          is_plausible_europe (some c.lon) (some c.lat) = true ∧
          r.lat = c.lon ∧ r.lon = c.lat ∧
          (r.tag = "GUANO (Lat/Lon swapped)" ∨
           r.tag = "GUANO (Lat/Lon swapped) (+Elev)"))) ∧
        is_plausible_europe (some r.lat) (some r.lon) = true) ∧
    (∀ (c : ParsedPos) (elev : Option ℚ) (cands : List ParsedPos),
      is_plausible_europe (some c.lat) (some c.lon) = false →
      is_plausible_europe (some c.lon) (some c.lat) = true →
      ∃ r, get_position_guano (c :: cands) elev = some r ∧
        r.lat = c.lon ∧ r.lon = c.lat ∧
        (r.tag = "GUANO (Lat/Lon swapped)" ∨
         r.tag = "GUANO (Lat/Lon swapped) (+Elev)")) := by
  refine ⟨?_, ?_, ?_⟩
  · intro ps p hp
    exact (List.mem_filter.mp hp).2
  · intro cands elev r hr
    simp only [get_position_guano] at hr
    rw [Option.map_eq_some'] at hr
    obtain ⟨y, hy, hpost⟩ := hr
    obtain ⟨c, hc, htry⟩ := List.exists_of_findSome?_eq_some hy
    refine ⟨c, hc, ?_⟩
    simp only [tryCandidate] at htry
    by_cases h1 : is_plausible_europe (some c.lat) (some c.lon) = true
    · rw [if_pos h1] at htry
      have hy' : y = (c.lat, c.lon, c.alt, "GUANO") := by
        simpa using htry.symm
      subst hy'
      cases elev with
      | none =>
        simp only at hpost
        subst hpost
        exact ⟨Or.inl ⟨h1, rfl, rfl, Or.inl rfl⟩, h1⟩
      | some e =>
        simp only at hpost
        subst hpost
        exact ⟨Or.inl ⟨h1, rfl, rfl, Or.inr rfl⟩, h1⟩
    · rw [if_neg h1] at htry
      by_cases h2 : is_plausible_europe (some c.lon) (some c.lat) = true
      · rw [if_pos h2] at htry
        have hy' : y = (c.lon, c.lat, c.alt, "GUANO (Lat/Lon swapped)") := by
          simpa using htry.symm
        subst hy'
        have h1f : is_plausible_europe (some c.lat) (some c.lon) = false := by
          simpa using h1
        cases elev with
        | none =>
          simp only at hpost
          subst hpost
          exact ⟨Or.inr ⟨h1f, h2, rfl, rfl, Or.inl rfl⟩, h2⟩
        | some e =>
          simp only at hpost
          subst hpost
          exact ⟨Or.inr ⟨h1f, h2, rfl, rfl, Or.inr rfl⟩, h2⟩
      · rw [if_neg h2] at htry
        exact absurd htry (by simp)
  · intro c elev cands h1 h2
    have htry : tryCandidate c = some (c.lon, c.lat, c.alt, "GUANO (Lat/Lon swapped)") := by
      simp only [tryCandidate]
      rw [if_neg (by simp [h1]), if_pos h2]
    cases elev with
    | none =>
      exact ⟨⟨c.lon, c.lat, c.alt.getD 0, "GUANO (Lat/Lon swapped)"⟩,
        by simp [get_position_guano, List.findSome?_cons, htry], rfl, rfl, Or.inl rfl⟩
    | some e =>
      exact ⟨⟨c.lon, c.lat, e, "GUANO (Lat/Lon swapped) (+Elev)"⟩,
        by simp [get_position_guano, List.findSome?_cons, htry], rfl, rfl, Or.inr rfl⟩

/-- Witness for C8: the candidate `(8, 48)` is accepted swapped as
`(48, 8)` with the swap recorded in the tag, and the accepted pair passes
the bounding box. -/
theorem C8_gps_bounding_box_swap_witness :
    ∃ c ∈ [candSwapped],
      ((is_plausible_europe (some c.lat) (some c.lon) = true ∧
        (48 : ℚ) = c.lat ∧ (8 : ℚ) = c.lon ∧
        ((("GUANO (Lat/Lon swapped)") : String) = "GUANO" ∨
         (("GUANO (Lat/Lon swapped)") : String) = "GUANO (+Elev)")) ∨
       (is_plausible_europe (some c.lat) (some c.lon) = false ∧
        is_plausible_europe (some c.lon) (some c.lat) = true ∧
        (48 : ℚ) = c.lon ∧ (8 : ℚ) = c.lat ∧
        ((("GUANO (Lat/Lon swapped)") : String) = "GUANO (Lat/Lon swapped)" ∨
         (("GUANO (Lat/Lon swapped)") : String) = "GUANO (Lat/Lon swapped) (+Elev)"))) ∧
      is_plausible_europe (some (48 : ℚ)) (some (8 : ℚ)) = true := by
  have hraw : is_plausible_europe (some (8 : ℚ)) (some (48 : ℚ)) = false := by
    norm_num [is_plausible_europe]
  have hswap : is_plausible_europe (some (48 : ℚ)) (some (8 : ℚ)) = true := by
    norm_num [is_plausible_europe]
  obtain ⟨r, hget, _, _, _⟩ :=
    C8_gps_bounding_box_swap.2.2 candSwapped none [] hraw hswap
  have hr : r = ⟨48, 8, 0, "GUANO (Lat/Lon swapped)"⟩ := by
    have hget2 : get_position_guano [candSwapped] none =
        some (⟨48, 8, 0, "GUANO (Lat/Lon swapped)"⟩ : PosResult) := by
      simp [get_position_guano, tryCandidate, candSwapped, hraw, hswap,
        List.findSome?_cons]
    rw [hget2] at hget
    exact ((Option.some.injEq _ _).mp hget).symm
  subst hr
  exact C8_gps_bounding_box_swap.2.1 [candSwapped] none
    ⟨48, 8, 0, "GUANO (Lat/Lon swapped)"⟩ hget

/-- Helper: membership in the first-occurrence de-duplication with
accumulator. -/
theorem mem_dedupFirstAux {α : Type} [DecidableEq α] (seen xs : List α) (a : α) :
    a ∈ dedupFirstAux seen xs ↔ a ∈ xs ∧ a ∉ seen := by
  induction xs generalizing seen with
  | nil => simp [dedupFirstAux]
  | cons x xs ih =>
    simp only [dedupFirstAux]
    by_cases hx : x ∈ seen
    · rw [if_pos hx, ih]
      simp only [List.mem_cons]
      constructor
      · rintro ⟨h1, h2⟩
        exact ⟨Or.inr h1, h2⟩
      · rintro ⟨h1 | h1, h2⟩
        · subst h1
          exact absurd hx h2
        · exact ⟨h1, h2⟩
    · rw [if_neg hx]
      simp only [List.mem_cons, ih]
      constructor
      · rintro (h | ⟨h1, h2⟩)
        · subst h
          exact ⟨Or.inl rfl, hx⟩
        · simp only [List.mem_cons, not_or] at h2
          exact ⟨Or.inr h1, h2.2⟩
      · rintro ⟨h1 | h1, h2⟩
        · exact Or.inl h1
        · by_cases hax : a = x
          · exact Or.inl hax
          · refine Or.inr ⟨h1, ?_⟩
            simp [List.mem_cons, not_or, hax, h2]

/-- Helper: the first-occurrence de-duplication has no duplicates. -/
theorem nodup_dedupFirstAux {α : Type} [DecidableEq α] (seen xs : List α) :
    (dedupFirstAux seen xs).Nodup := by
  induction xs generalizing seen with
  | nil => simp [dedupFirstAux]
  | cons x xs ih =>
    simp only [dedupFirstAux]
    by_cases hx : x ∈ seen
    · rw [if_pos hx]
      exact ih seen
    · rw [if_neg hx]
      refine List.nodup_cons.mpr ⟨?_, ih _⟩
      intro hmem
      exact ((mem_dedupFirstAux _ _ _).mp hmem).2 (List.mem_cons_self x seen)

/-- C9 counterexample: a canonical table whose one basename sees species
`"b"` before `"a"` gives a per-file artifact listing `b, a` — the
first-occurrence order of `Series.unique` — while the sorted, de-duplicated
sequence the claim describes is `a, b`; the two differ, so the reconciler's
artifact is not the sorted (nor comma-joined) form. -/
theorem C9_counterexample_unsorted :
    BatSummary.speciesPerFileEntry (reconcile [] (load_all_csv csvFilesBA)) "f" =
      [some ("b"), some ("a")] ∧
    sortedDistinctSpecies (reconcile [] (load_all_csv csvFilesBA)) "f" = ["a", "b"] ∧
    (BatSummary.speciesPerFileEntry (reconcile [] (load_all_csv csvFilesBA)) "f").map
        (fun o => o.getD ("nan")) ≠
      sortedDistinctSpecies (reconcile [] (load_all_csv csvFilesBA)) "f" := by
  have hstem : splitextStem ("f.csv") = "f" := by decide
  have hcanon : reconcile [] (load_all_csv csvFilesBA) =
      [{ basename := "f", start := some 1, end_ := some 2, low_freq := none,
         high_freq := none, freq_mean := none, species := some ("b"),
         confidence := some (9/10) },
       { basename := "f", start := some 3, end_ := some 4, low_freq := none,
         high_freq := none, freq_mean := none, species := some ("a"),
         confidence := some (8/10) }] := by
    simp [reconcile, load_all_csv, csvFilesBA, mkCRow, csvOnlyRows, finalSpeciesFill, hstem]
  rw [hcanon]
  refine ⟨?_, ?_, ?_⟩
  · simp [BatSummary.speciesPerFileEntry, BatSummary.speciesOfBasename,
      BatSummary.dedupFirst, BatSummary.dedupFirstAux]
  · simp [sortedDistinctSpecies, BatSummary.speciesOfBasename, Merge3.sortedSet,
      List.insertionSort, List.orderedInsert, List.dedup]
    decide
  · simp [BatSummary.speciesPerFileEntry, BatSummary.speciesOfBasename,
      BatSummary.dedupFirst, BatSummary.dedupFirstAux, sortedDistinctSpecies,
      Merge3.sortedSet, List.insertionSort, List.orderedInsert, List.dedup]
    decide

/-- C9 amended: the reconciler's per-file artifact maps each basename to
the de-duplicated species sequence in first-occurrence order (no
duplicates, same members as that basename's species column); the sorted,
de-duplicated, comma-joined string is produced later by the three-way
merger's aggregation, whose joined list is sorted, duplicate-free and
member-equal to its input. -/
theorem C9_per_file_species_amended :
    (∀ (rows : List Canon) (b : String), (speciesPerFileEntry rows b).Nodup) ∧
    (∀ (rows : List Canon) (b : String) (s : Option String),
      s ∈ speciesPerFileEntry rows b ↔ s ∈ speciesOfBasename rows b) ∧
    (∀ xs : List String, ∃ L, aggSpecies xs = String.intercalate (", ") L ∧
      L.Sorted (· ≤ ·) ∧ L.Nodup ∧ ∀ s, s ∈ L ↔ s ∈ xs) := by
  refine ⟨?_, ?_, ?_⟩
  · intro rows b
    exact nodup_dedupFirstAux [] _
  · intro rows b s
    rw [BatSummary.speciesPerFileEntry, BatSummary.dedupFirst, mem_dedupFirstAux]
    simp
  · intro xs
    refine ⟨Merge3.sortedSet xs, rfl, ?_, ?_, ?_⟩
    · exact List.sorted_insertionSort _ _
    · exact ((List.perm_insertionSort _ _).nodup_iff).mpr (List.nodup_dedup xs)
    · intro s
      rw [Merge3.sortedSet, List.mem_insertionSort, List.mem_dedup]
